import Mathlib

/-!
Verification of the mapwar simulation core (src/rng.rs, src/game_state.rs)
against its natural-language specification.

The Rust code is shallowly embedded: machine integers `u64` become `Nat`
taken modulo `2 ^ 64` where overflow matters, `i32` unit counts and skill
levels become `Int` (no arithmetic in the claims approaches the `i32`
bounds), `Vec` becomes `List`, `HashMap<String, usize>` becomes an
association list with first-match lookup, and `&mut self` methods become
functions returning the updated state (paired with the result or the
emitted events).
-/

namespace Mapwar

set_option maxRecDepth 40000

/-- The 64-bit modulus used for all wrapping `u64` arithmetic. -/
def U64 : Nat := 2 ^ 64

/-- The deterministic random source from `src/rng.rs`: a single `u64` of
mutable state. -/
structure Rng where
  state : Nat
deriving Repr, DecidableEq

/-- The fixed odd 64-bit multiplier `MULT = 0x243f6a8885a308d3` from
`Rng::generate`. -/
def RngMULT : Nat := 0x243f6a8885a308d3

/-- One iteration of the loop body in `Rng::generate`:
`x = x.wrapping_mul(MULT); x ^= x >> 37;`. -/
def mixStep (x : Nat) : Nat :=
  let y := x * RngMULT % U64
  Nat.xor y (y >>> 37)

/-- `Rng::new_from_seed` from `src/rng.rs`. -/
def Rng.new_from_seed (seed : Nat) : Rng := { state := seed % U64 }

/-- `Rng::generate` from `src/rng.rs`: increment the state, run the mixing
loop `for _ in 0..3 { x = x.wrapping_mul(MULT); x ^= x >> 37; }`, then one
final `wrapping_mul(MULT)`.  Returns the generated value and the updated
generator. -/
def Rng.generate (r : Rng) : Nat × Rng :=
  let s := (r.state + 1) % U64
  let x := (List.range 3).foldl (fun x _ => mixStep x) s
  let x := x * RngMULT % U64
  (x, { state := s })

/-- The `n`-th output of the generator (0-indexed), obtained by calling
`generate` repeatedly. -/
def Rng.output : Rng → Nat → Nat
  | r, 0 => r.generate.1
  | r, n + 1 => Rng.output r.generate.2 n

/-- `Command` from `src/game_state.rs`. -/
inductive Command where
  | attack (target : Nat)
  | fortify
  | grow
deriving Repr, DecidableEq

/-- `GameAction` from `src/game_state.rs`. -/
inductive GameAction where
  | setCommand (territory : Nat) (command : Command)
  | resign
deriving Repr, DecidableEq

/-- `PlayerState` from `src/game_state.rs`. -/
structure PlayerState where
  is_alive : Bool
  defense_level : Int
  attack_level : Int
  vision_level : Int
  growth_level : Int
deriving Repr, DecidableEq

instance : Inhabited PlayerState :=
  ⟨{ is_alive := false, defense_level := 0, attack_level := 0,
     vision_level := 0, growth_level := 0 }⟩

/-- `TerritorySort` from `src/game_state.rs`. -/
inductive TerritorySort where
  | land
  | swamp
  | forest
  | tower
  | gold
  | lab
deriving Repr, DecidableEq

/-- `Territory` from `src/game_state.rs`.  `contents` is the optional pair
(owning player index, unit count). -/
structure Territory where
  sort : TerritorySort
  contents : Option (Nat × Int)
  command : Command
  adjacent : List Nat
  render_info : Int × Int
deriving Repr, DecidableEq

instance : Inhabited Territory :=
  ⟨{ sort := .land, contents := none, command := .grow, adjacent := [],
     render_info := (0, 0) }⟩

/-- `AnimationEvent` from `src/game_state.rs`. -/
inductive AnimationEvent where
  | death (render_info : Int × Int) (amount : Int)
  | movement (render_info_from render_info_to : Int × Int) (amount : Int)
deriving Repr, DecidableEq

/-- `GameState` from `src/game_state.rs`.  The token map is an association
list looked up with first-match semantics. -/
structure GameState where
  rng : Rng
  territories : List Territory
  player_states : List PlayerState
  player_indices_by_token : List (String × Nat)
deriving Repr, DecidableEq

/-- `GameState::new` from `src/game_state.rs`. -/
def GameState.new (seed : Nat) : GameState :=
  { rng := Rng.new_from_seed seed
    territories := []
    player_states := []
    player_indices_by_token := [] }

/-- `GameState::process_action` from `src/game_state.rs`.  The Rust method
mutates `self` and returns `Result<(), Error>`; the embedding returns the
result together with the state as it stands when the method returns (each
`bail!` is an early return).  Error values are the `bail!` message
strings. -/
def GameState.process_action (st : GameState) (player_token : String)
    (action : GameAction) : Except String Unit × GameState :=
  match st.player_indices_by_token.lookup player_token with
  | none => (.error "Player not found", st)
  | some player_index =>
    if !(st.player_states.getD player_index default).is_alive then
      (.error "Player already dead", st)
    else
      match action with
      | .setCommand territory command =>
        match st.territories.get? territory with
        | none => (.error "Territory not found", st)
        | some command_terr =>
          match command_terr.contents with
          | none => (.error "Territory is empty", st)
          | some (owner, _) =>
            if owner ≠ player_index then
              (.error "Player does not own territory", st)
            else
              let check : Except String Unit :=
                match command with
                | .attack target =>
                  if (st.territories.get? target).isNone then
                    .error "Target territory not found"
                  else if !(command_terr.adjacent.contains target) then
                    .error "Target territory not adjacent"
                  else
                    .ok ()
                | .fortify | .grow => .ok ()
              match check with
              | .error e => (.error e, st)
              | .ok _ =>
                let terr' := { command_terr with command := command }
                (.ok (), { st with territories := st.territories.set territory terr' })
      | .resign =>
        let player' := { st.player_states.getD player_index default with is_alive := false }
        (.ok (), { st with player_states := st.player_states.set player_index player' })

/-- Phase A of `GameState::step_time`: the closure mapped over the
territories computing `half_defense_points` for one territory. -/
def half_defense_of (player_states : List PlayerState) (terr : Territory) : Int :=
  match terr.contents with
  | none => 0
  | some (owner, units) =>
    2 * (player_states.getD owner default).defense_level +
    (match terr.command with
     | .attack _ => units
     | _ => 2 * units) +
    (match terr.sort with
     | .swamp => -2
     | .forest => 2
     | _ => units) +
    (match terr.command with
     | .fortify => 2
     | _ => 0)

/-- Phase B of `GameState::step_time`: the loop over territories that adds
each attacker's units either to the target's half-defense points (same
owner: reinforcement) or to the target's incoming half-attack points.
Returns the updated `half_defense_points` and `incoming_half_attack_points`
lists. -/
def phaseB (territories : List Territory) (hd0 : List Int) : List Int × List Int :=
  territories.foldl
    (fun acc terr =>
      match terr.contents with
      | none => acc
      | some (owner, units) =>
        match terr.command with
        | .attack target =>
          let sameOwner :=
            match (territories.getD target default).contents with
            | some (target_owner, _) => target_owner == owner
            | none => false
          if sameOwner then
            (acc.1.set target (acc.1.getD target 0 + units), acc.2)
          else
            (acc.1, acc.2.set target (acc.2.getD target 0 + units))
        | _ => acc)
    (hd0, List.replicate territories.length 0)

/-- The loop `for _ in 0..n { sum += self.rng.generate() & 0x3; }` from
phase C of `GameState::step_time`: draw `n` values, mask each to its low 2
bits, and sum.  Returns the sum and the advanced generator. -/
def drawSum (rng : Rng) : Nat → Nat × Rng
  | 0 => (0, rng)
  | n + 1 =>
    let (v, rng') := rng.generate
    let (s, rng'') := drawSum rng' n
    (Nat.land v 0x3 + s, rng'')

/-- Phase C of `GameState::step_time`, processing territories in index
order starting at index `i`: roll defense and attack sums for each
territory and clear the contents of (and emit a Death event for) each
territory whose attack sum strictly exceeds its defense sum. -/
def phaseCgo (hd atk : List Int) : Nat → List Territory → Rng →
    List AnimationEvent → List Territory × Rng × List AnimationEvent
  | _, [], rng, evs => ([], rng, evs)
  | i, terr :: rest, rng, evs =>
    let (defense_sum, rng1) := drawSum rng (hd.getD i 0).toNat
    let (attack_sum, rng2) := drawSum rng1 (atk.getD i 0).toNat
    let (terr', evs') :=
      if defense_sum < attack_sum then
        ({ terr with contents := none },
         evs ++ [AnimationEvent.death terr.render_info 0])
      else
        (terr, evs)
    let (rest', rng3, evs'') := phaseCgo hd atk (i + 1) rest rng2 evs'
    (terr' :: rest', rng3, evs'')

/-- `IncomingEntry` from phase D of `GameState::step_time`. -/
structure IncomingEntry where
  units : Int
  source_territory : Option Nat
  competitor_count : Nat
deriving Repr, DecidableEq

instance : Inhabited IncomingEntry :=
  ⟨{ units := -1, source_territory := none, competitor_count := 0 }⟩

/-- The initial `best_incoming` vector of phase D: one entry per territory
with `units = -1`, no source, and competitor count 0. -/
def initBest (n : Nat) : List IncomingEntry :=
  List.replicate n { units := -1, source_territory := none, competitor_count := 0 }

/-- Phase D of `GameState::step_time`, selection half: walk the (post
phase C) territories in index order starting at index `i`; every occupied
territory commanding an attack on an empty target competes for that
target, with strictly more units always winning and ties broken by a
reservoir draw `rng.generate() % competitor_count == 0`.  `territories` is
the full post-phase-C list used to look up target contents. -/
def phaseDgo (territories : List Territory) : Nat → List Territory →
    List IncomingEntry → Rng → List IncomingEntry × Rng
  | _, [], best, rng => (best, rng)
  | i, terr :: rest, best, rng =>
    match terr.contents with
    | none => phaseDgo territories (i + 1) rest best rng
    | some (_, units) =>
      match terr.command with
      | .attack target =>
        if (territories.getD target default).contents.isSome then
          phaseDgo territories (i + 1) rest best rng
        else
          let entry := best.getD target default
          if entry.units < units then
            let entry1 : IncomingEntry :=
              { units := units, source_territory := some i, competitor_count := 1 }
            phaseDgo territories (i + 1) rest (best.set target entry1) rng
          else if entry.units = units then
            let cc := entry.competitor_count + 1
            let (v, rng') := rng.generate
            let entry1 : IncomingEntry :=
              if v % cc == 0 then
                { units := units, source_territory := some i, competitor_count := cc }
              else
                { entry with competitor_count := cc }
            phaseDgo territories (i + 1) rest (best.set target entry1) rng'
          else
            phaseDgo territories (i + 1) rest best rng
      | _ => phaseDgo territories (i + 1) rest best rng

/-- Phase D of `GameState::step_time`, application half: for each target
with a selected source, copy the source's contents into the target, empty
the source, and emit a Movement event (with the hardcoded amount 0 from
the source).  `t` is the index of the head of `best`. -/
def applyMoves : Nat → List IncomingEntry → List Territory →
    List AnimationEvent → List Territory × List AnimationEvent
  | _, [], terrs, evs => (terrs, evs)
  | t, entry :: rest, terrs, evs =>
    match entry.source_territory with
    | none => applyMoves (t + 1) rest terrs evs
    | some src =>
      let contents := (terrs.getD src default).contents
      let terrs1 := terrs.set t { (terrs.getD t default) with contents := contents }
      let terrs2 := terrs1.set src { (terrs1.getD src default) with contents := none }
      let ev := AnimationEvent.movement (terrs2.getD src default).render_info
        (terrs2.getD t default).render_info 0
      applyMoves (t + 1) rest terrs2 (evs ++ [ev])

/-- Phases B, C and D of `GameState::step_time`, given the phase A
half-defense list `hd0` (the only part of the step that reads player
state): returns the final RNG, the final territory list and the event
list in order. -/
def step_core (rng : Rng) (territories : List Territory) (hd0 : List Int) :
    Rng × List Territory × List AnimationEvent :=
  let (hd, atk) := phaseB territories hd0
  let (terrs1, rng1, evs1) := phaseCgo hd atk 0 territories rng []
  let (best, rng2) := phaseDgo terrs1 0 terrs1 (initBest territories.length) rng1
  let (terrs2, evs2) := applyMoves 0 best terrs1 evs1
  (rng2, terrs2, evs2)

/-- `GameState::step_time` from `src/game_state.rs`.  The Rust method has
return type `()` and drops the local `animation_events` vector it builds;
the embedding returns that vector alongside the updated state so that it
can be reasoned about. -/
def GameState.step_time (st : GameState) : GameState × List AnimationEvent :=
  let hd0 := st.territories.map (half_defense_of st.player_states)
  let (rng2, terrs2, evs2) := step_core st.rng st.territories hd0
  ({ st with rng := rng2, territories := terrs2 }, evs2)

/-! ### Spec-side definitions (written from the specification's words) -/

/-- The Phase A score exactly as claim C5 words it: twice the owner's
defense level, plus the unit count if the territory's command is Attack
and twice the unit count otherwise, plus a terrain modifier of -2 for
swamp, +2 for forest, and the unit count again for every other terrain,
plus 2 if the command is Fortify; every unoccupied territory scores 0. -/
def specHalfDefense (player_states : List PlayerState) (terr : Territory) : Int :=
  match terr.contents with
  | none => 0
  | some (owner, units) =>
    let attackStance : Bool := match terr.command with | .attack _ => true | _ => false
    let terrain : Int := match terr.sort with | .swamp => -2 | .forest => 2 | _ => units
    let fortifyBonus : Int := match terr.command with | .fortify => 2 | _ => 0
    2 * (player_states.getD owner default).defense_level +
      (if attackStance then units else 2 * units) + terrain + fortifyBonus

/-- The validation error taxonomy named by the specification. -/
inductive ActionError where
  | playerNotFound
  | playerAlreadyDead
  | territoryNotFound
  | territoryEmpty
  | notOwner
  | targetNotFound
  | targetNotAdjacent
deriving Repr, DecidableEq

/-- The `bail!` message string `process_action` uses for each error of the
specification's taxonomy. -/
def ActionError.message : ActionError → String
  | .playerNotFound => "Player not found"
  | .playerAlreadyDead => "Player already dead"
  | .territoryNotFound => "Territory not found"
  | .territoryEmpty => "Territory is empty"
  | .notOwner => "Player does not own territory"
  | .targetNotFound => "Target territory not found"
  | .targetNotAdjacent => "Target territory not adjacent"

/-- The rejection conditions exactly as claim C6 words them: an unknown
player token fails with PlayerNotFound; a dead player fails with
PlayerAlreadyDead for any action; for SetCommand, an out-of-range
territory index fails with TerritoryNotFound, an unoccupied territory
with TerritoryEmpty, a territory owned by another player with NotOwner,
and for an Attack command an out-of-range target with TargetNotFound and
a non-adjacent target with TargetNotAdjacent; otherwise the call
succeeds. -/
def specValidate (st : GameState) (player_token : String)
    (action : GameAction) : Except ActionError Unit :=
  match st.player_indices_by_token.lookup player_token with
  | none => .error .playerNotFound
  | some player_index =>
    if ¬ (st.player_states.getD player_index default).is_alive then
      .error .playerAlreadyDead
    else
      match action with
      | .resign => .ok ()
      | .setCommand territory command =>
        if h : territory < st.territories.length then
          match (st.territories.get ⟨territory, h⟩).contents with
          | none => .error .territoryEmpty
          | some (owner, _) =>
            if owner ≠ player_index then .error .notOwner
            else
              match command with
              | .attack target =>
                if target ≥ st.territories.length then .error .targetNotFound
                else if ¬ (st.territories.get ⟨territory, h⟩).adjacent.contains target then
                  .error .targetNotAdjacent
                else .ok ()
              | .fortify | .grow => .ok ()
        else .error .territoryNotFound

/-! ### Replay scripts -/

/-- One externally driven call on a `GameState`: either a `process_action`
call by some player or a `step_time` tick. -/
inductive ScriptItem where
  | act (player_token : String) (action : GameAction)
  | tick
deriving Repr, DecidableEq

/-- Run a script of calls against a state, collecting the concatenated
animation events of all ticks and the result of every action in order. -/
def runScript : GameState → List ScriptItem →
    GameState × List AnimationEvent × List (Except String Unit)
  | st, [] => (st, [], [])
  | st, .act tok a :: rest =>
    let (res, st1) := st.process_action tok a
    let (stf, evs, results) := runScript st1 rest
    (stf, evs, res :: results)
  | st, .tick :: rest =>
    let (st1, evs) := st.step_time
    let (stf, evs2, results) := runScript st1 rest
    (stf, evs ++ evs2, results)

/-- A fully constructed game: `GameState::new` with the initial territory
layout and player roster installed (the populating code is transport-side
and not part of the core; the spec says construction takes a seed, a
layout and a roster). -/
def GameState.init (seed : Nat) (territories : List Territory)
    (players : List PlayerState) (tokens : List (String × Nat)) : GameState :=
  { GameState.new seed with
    territories := territories
    player_states := players
    player_indices_by_token := tokens }

/-! ### Concrete scenarios -/

/-- A player with all skill levels 0, alive. -/
def basicPlayer : PlayerState :=
  { is_alive := true, defense_level := 0, attack_level := 0,
    vision_level := 0, growth_level := 0 }

/-- The spec's 2-territory scenario: territory 0 owned by player 0 with
10 units commanding Attack 1; territory 1 empty. -/
def scenario2 (seed : Nat) : GameState :=
  { rng := Rng.new_from_seed seed
    territories :=
      [ { sort := .land, contents := some (0, 10), command := .attack 1,
          adjacent := [1], render_info := (0, 0) },
        { sort := .land, contents := none, command := .grow,
          adjacent := [0], render_info := (10, 20) } ]
    player_states := [basicPlayer]
    player_indices_by_token := [( "A", 0)] }

/-- A 3-territory scenario for claim C2: territory 0 (player 0, 5 units)
commands Attack 2 at the empty territory 2, while territory 1 (player 1,
100 units) commands Attack 0, overwhelming territory 0 in phase C. -/
def scenarioC2 : GameState :=
  { rng := Rng.new_from_seed 0
    territories :=
      [ { sort := .land, contents := some (0, 5), command := .attack 2,
          adjacent := [1, 2], render_info := (0, 0) },
        { sort := .land, contents := some (1, 100), command := .attack 0,
          adjacent := [0], render_info := (1, 1) },
        { sort := .land, contents := none, command := .grow,
          adjacent := [0], render_info := (2, 2) } ]
    player_states := [basicPlayer, basicPlayer]
    player_indices_by_token := [( "A", 0), ( "B", 1)] }

/-- The phase A/B tallies of the C2 scenario. -/
def scenarioC2tally : List Int × List Int :=
  phaseB scenarioC2.territories
    (scenarioC2.territories.map (half_defense_of scenarioC2.player_states))

/-- The phase C outcome of the C2 scenario. -/
def scenarioC2combat : List Territory × Rng × List AnimationEvent :=
  phaseCgo scenarioC2tally.1 scenarioC2tally.2 0 scenarioC2.territories scenarioC2.rng []

/-- The phase D selection outcome of the C2 scenario. -/
def scenarioC2best : List IncomingEntry × Rng :=
  phaseDgo scenarioC2combat.1 0 scenarioC2combat.1 (initBest 3) scenarioC2combat.2.1

/-- The 2-territory scenario with its single player marked dead instead of
alive (everything else identical). -/
def scenario2dead : GameState :=
  { scenario2 0 with player_states := [{ basicPlayer with is_alive := false }] }

/-- Two player rosters that agree in length and in every skill level,
differing at most in the `is_alive` flags. -/
def samePlayersExceptAlive (P Q : List PlayerState) : Prop :=
  P.length = Q.length ∧
  ∀ i, i < P.length →
    (P.getD i default).defense_level = (Q.getD i default).defense_level ∧
    (P.getD i default).attack_level = (Q.getD i default).attack_level ∧
    (P.getD i default).vision_level = (Q.getD i default).vision_level ∧
    (P.getD i default).growth_level = (Q.getD i default).growth_level

instance (P Q : List PlayerState) : Decidable (samePlayersExceptAlive P Q) := by
  unfold samePlayersExceptAlive
  exact instDecidableAnd

/-- Every `best_incoming` entry with a nonnegative unit count has a
recorded source territory (the invariant maintained by phase D's
selection loop). -/
def goodBest (best : List IncomingEntry) : Prop :=
  ∀ t, 0 ≤ (best.getD t default).units → (best.getD t default).source_territory.isSome

/-! ### Helper lemmas -/

theorem getD_set {α : Type} (l : List α) (i j : Nat) (a d : α) :
    (l.set i a).getD j d = if i = j ∧ i < l.length then a else l.getD j d := by
  induction l generalizing i j with
  | nil => simp
  | cons hd tl ih =>
    cases i with
    | zero => cases j <;> simp
    | succ i2 =>
      cases j with
      | zero => simp
      | succ j2 =>
        simpa [Nat.succ_lt_succ_iff, Nat.succ_inj] using ih i2 j2

theorem getD_replicate {α : Type} (a d : α) (n t : Nat) :
    (List.replicate n a).getD t d = if t < n then a else d := by
  induction n generalizing t with
  | zero => simp
  | succ n ih =>
    cases t with
    | zero => simp [List.replicate]
    | succ t2 => simpa [List.replicate, Nat.succ_lt_succ_iff] using ih t2

/-- A territory whose incoming half-attack count is zero is returned by
the phase C loop exactly as it went in. -/
theorem phaseCgo_element (hd atk : List Int) (terrs : List Territory) :
    ∀ (j : Nat) (rng : Rng) (evs : List AnimationEvent) (k : Nat),
      atk.getD (j + k) 0 = 0 →
      (phaseCgo hd atk j terrs rng evs).1.getD k default = terrs.getD k default := by
  induction terrs with
  | nil => intro j rng evs k h; rfl
  | cons t ts ih =>
    intro j rng evs k h
    cases k with
    | zero =>
      unfold phaseCgo
      simp only [Nat.add_zero] at h
      rw [h]
      simp [drawSum]
    | succ k2 =>
      unfold phaseCgo
      simp only [List.getD_cons_succ]
      have h2 : atk.getD ((j + 1) + k2) 0 = 0 := by
        rw [show (j + 1) + k2 = j + (k2 + 1) by omega]
        exact h
      exact ih (j + 1) _ _ k2 h2

/-- `step_time` rewritten through `step_core`: the step's result fields
are the projections of the core computation. -/
theorem step_time_eq (st : GameState) :
    st.step_time =
      ({ st with
          rng := (step_core st.rng st.territories
            (st.territories.map (half_defense_of st.player_states))).1
          territories := (step_core st.rng st.territories
            (st.territories.map (half_defense_of st.player_states))).2.1 },
        (step_core st.rng st.territories
          (st.territories.map (half_defense_of st.player_states))).2.2) := by
  unfold GameState.step_time
  cases hsc : step_core st.rng st.territories
      (st.territories.map (half_defense_of st.player_states)) with
  | mk rng2 rest =>
    cases rest with
    | mk terrs2 evs2 =>
      dsimp only
      rw [hsc]

/-- The phase A score reads nothing of a player but the defense level. -/
theorem half_defense_congr (P Q : List PlayerState)
    (h : ∀ i : Nat, (P[i]?.getD default).defense_level = (Q[i]?.getD default).defense_level)
    (terr : Territory) : half_defense_of P terr = half_defense_of Q terr := by
  cases hc : terr.contents with
  | none => simp [half_defense_of, hc]
  | some pr =>
    rcases pr with ⟨owner, units⟩
    simp [half_defense_of, hc, h owner]

theorem getD_set_self {α : Type} (l : List α) (t : Nat) (a d : α) (ht : t < l.length) :
    (l.set t a).getD t d = a := by
  rw [getD_set]
  simp [ht]

/-- One phase D update can only raise an entry's best unit count, and
never discards a recorded source. -/
theorem getD_set_mono (best : List IncomingEntry) (target : Nat)
    (entry1 : IncomingEntry) (t : Nat)
    (hu : (best.getD target default).units ≤ entry1.units)
    (hs : (best.getD target default).source_territory.isSome →
      entry1.source_territory.isSome) :
    (best.getD t default).units ≤ ((best.set target entry1).getD t default).units ∧
    ((best.getD t default).source_territory.isSome →
      ((best.set target entry1).getD t default).source_territory.isSome) := by
  rw [getD_set]
  split
  · next h =>
    obtain ⟨heq, _⟩ := h
    subst heq
    exact ⟨hu, hs⟩
  · exact ⟨le_refl _, id⟩

/-- Across the whole phase D selection loop, every entry's best unit
count is nondecreasing and a recorded source is never discarded. -/
theorem phaseDgo_le (territories : List Territory) (rest : List Territory) :
    ∀ (j : Nat) (best : List IncomingEntry) (rng : Rng) (t : Nat),
      (best.getD t default).units ≤
        ((phaseDgo territories j rest best rng).1.getD t default).units ∧
      ((best.getD t default).source_territory.isSome →
        ((phaseDgo territories j rest best rng).1.getD t default).source_territory.isSome) := by
  induction rest with
  | nil => intro j best rng t; exact ⟨le_refl _, id⟩
  | cons terr rest ih =>
    intro j best rng t
    have step : ∀ (best2 : List IncomingEntry) (rng2 : Rng),
        ((best.getD t default).units ≤ (best2.getD t default).units ∧
         ((best.getD t default).source_territory.isSome →
           (best2.getD t default).source_territory.isSome)) →
        (best.getD t default).units ≤
          ((phaseDgo territories (j + 1) rest best2 rng2).1.getD t default).units ∧
        ((best.getD t default).source_territory.isSome →
          ((phaseDgo territories (j + 1) rest best2 rng2).1.getD t default).source_territory.isSome) := by
      intro best2 rng2 h
      obtain ⟨ih1, ih2⟩ := ih (j + 1) best2 rng2 t
      exact ⟨le_trans h.1 ih1, fun hh => ih2 (h.2 hh)⟩
    obtain ⟨sort, contents, command, adjacent, ri⟩ := terr
    cases contents with
    | none => exact step best rng ⟨le_refl _, id⟩
    | some pr =>
      rcases pr with ⟨owner, units⟩
      cases command with
      | fortify => exact step best rng ⟨le_refl _, id⟩
      | grow => exact step best rng ⟨le_refl _, id⟩
      | attack target =>
        by_cases htgt : (territories.getD target default).contents.isSome = true
        · simp only [phaseDgo, htgt, if_true]
          exact step best rng ⟨le_refl _, id⟩
        · rw [Bool.not_eq_true] at htgt
          simp only [phaseDgo, htgt, Bool.false_eq_true, if_false]
          by_cases hlt : (best.getD target default).units < units
          · rw [if_pos hlt]
            exact step _ rng (getD_set_mono best target _ t (le_of_lt hlt) (fun _ => rfl))
          · rw [if_neg hlt]
            by_cases heq : (best.getD target default).units = units
            · rw [if_pos heq]
              cases hgen : rng.generate with
              | mk v rng2 =>
                by_cases hv : (v % ((best.getD target default).competitor_count + 1) == 0) = true
                · simp only [hv, if_true]
                  exact step _ rng2 (getD_set_mono best target _ t (le_of_eq heq) (fun _ => rfl))
                · rw [Bool.not_eq_true] at hv
                  simp only [hv, Bool.false_eq_true, if_false]
                  exact step _ rng2 (getD_set_mono best target _ t (le_refl _) id)
            · rw [if_neg heq]
              exact step best rng ⟨le_refl _, id⟩

/-- One phase D update preserves `goodBest`. -/
theorem goodBest_set (best : List IncomingEntry) (target : Nat) (entry1 : IncomingEntry)
    (hg : goodBest best)
    (h1 : 0 ≤ entry1.units → entry1.source_territory.isSome) :
    goodBest (best.set target entry1) := by
  intro t
  rw [getD_set]
  split
  · next h => exact h1
  · exact hg t

/-- The phase D selection loop preserves `goodBest`. -/
theorem phaseDgo_good (territories : List Territory) (rest : List Territory) :
    ∀ (j : Nat) (best : List IncomingEntry) (rng : Rng),
      goodBest best → goodBest (phaseDgo territories j rest best rng).1 := by
  induction rest with
  | nil => intro j best rng hg; exact hg
  | cons terr rest ih =>
    intro j best rng hg
    obtain ⟨sort, contents, command, adjacent, ri⟩ := terr
    cases contents with
    | none => exact ih (j + 1) best rng hg
    | some pr =>
      rcases pr with ⟨owner, units⟩
      cases command with
      | fortify => exact ih (j + 1) best rng hg
      | grow => exact ih (j + 1) best rng hg
      | attack target =>
        by_cases htgt : (territories.getD target default).contents.isSome = true
        · simp only [phaseDgo, htgt, if_true]
          exact ih (j + 1) best rng hg
        · rw [Bool.not_eq_true] at htgt
          simp only [phaseDgo, htgt, Bool.false_eq_true, if_false]
          by_cases hlt : (best.getD target default).units < units
          · rw [if_pos hlt]
            exact ih _ _ _ (goodBest_set best target _ hg (fun _ => rfl))
          · rw [if_neg hlt]
            by_cases heq : (best.getD target default).units = units
            · rw [if_pos heq]
              cases hgen : rng.generate with
              | mk v rng2 =>
                by_cases hv : (v % ((best.getD target default).competitor_count + 1) == 0) = true
                · simp only [hv, if_true]
                  exact ih _ _ _ (goodBest_set best target _ hg (fun _ => rfl))
                · rw [Bool.not_eq_true] at hv
                  simp only [hv, Bool.false_eq_true, if_false]
                  refine ih _ _ _ (goodBest_set best target _ hg ?_)
                  intro h0
                  exact hg target h0
            · rw [if_neg heq]
              exact ih (j + 1) best rng hg

/-- A candidate processed by the phase D loop (occupied, attacking an
empty target) bounds the final winning unit count for its target, and
that target ends with a recorded source. -/
theorem phaseDgo_candidate (territories : List Territory) (rest : List Territory) :
    ∀ (j : Nat) (best : List IncomingEntry) (rng : Rng) (k p : Nat) (u : Int) (t : Nat),
      goodBest best →
      k < rest.length →
      (rest.getD k default).contents = some (p, u) →
      (rest.getD k default).command = .attack t →
      (territories.getD t default).contents = none →
      0 ≤ u →
      t < best.length →
      u ≤ ((phaseDgo territories j rest best rng).1.getD t default).units ∧
      ((phaseDgo territories j rest best rng).1.getD t default).source_territory.isSome := by
  induction rest with
  | nil =>
    intro j best rng k p u t hg hk
    simp at hk
  | cons terr rest ih =>
    intro j best rng k p u t hg hk hcont hcmd htgt hu ht
    cases k with
    | zero =>
      obtain ⟨sort, contents, command, adjacent, ri⟩ := terr
      simp only [List.getD_cons_zero] at hcont hcmd
      subst hcont
      subst hcmd
      have htgt2 : (territories.getD t default).contents.isSome = false := by
        rw [htgt]
        rfl
      simp only [phaseDgo, htgt2, Bool.false_eq_true, if_false]
      by_cases hlt : (best.getD t default).units < u
      · rw [if_pos hlt]
        obtain ⟨l1, l2⟩ := phaseDgo_le territories rest (j + 1)
          (best.set t { units := u, source_territory := some j, competitor_count := 1 }) rng t
        rw [getD_set_self _ _ _ _ ht] at l1 l2
        exact ⟨l1, l2 rfl⟩
      · rw [if_neg hlt]
        by_cases heq : (best.getD t default).units = u
        · rw [if_pos heq]
          cases hgen : rng.generate with
          | mk v rng2 =>
            by_cases hv : (v % ((best.getD t default).competitor_count + 1) == 0) = true
            · simp only [hv, if_true]
              obtain ⟨l1, l2⟩ := phaseDgo_le territories rest (j + 1)
                (best.set t ({ units := u, source_territory := some j, competitor_count := (best.getD t default).competitor_count + 1 })) rng2 t
              rw [getD_set_self _ _ _ _ ht] at l1 l2
              exact ⟨l1, l2 rfl⟩
            · rw [Bool.not_eq_true] at hv
              simp only [hv, Bool.false_eq_true, if_false]
              obtain ⟨l1, l2⟩ := phaseDgo_le territories rest (j + 1)
                (best.set t ({ best.getD t default with competitor_count := (best.getD t default).competitor_count + 1 })) rng2 t
              rw [getD_set_self _ _ _ _ ht] at l1 l2
              constructor
              · exact le_trans (le_of_eq heq.symm) l1
              · refine l2 ?_
                refine hg t ?_
                rw [heq]
                exact hu
        · rw [if_neg heq]
          obtain ⟨l1, l2⟩ := phaseDgo_le territories rest (j + 1) best rng t
          have hge : u ≤ (best.getD t default).units := not_lt.mp hlt
          constructor
          · exact le_trans hge l1
          · refine l2 ?_
            refine hg t ?_
            omega
    | succ k2 =>
      obtain ⟨sort, contents, command, adjacent, ri⟩ := terr
      simp only [List.getD_cons_succ] at hcont hcmd
      have hk2 : k2 < rest.length := by simpa using hk
      cases contents with
      | none => exact ih (j + 1) best rng k2 p u t hg hk2 hcont hcmd htgt hu ht
      | some pr =>
        rcases pr with ⟨owner, units⟩
        cases command with
        | fortify => exact ih (j + 1) best rng k2 p u t hg hk2 hcont hcmd htgt hu ht
        | grow => exact ih (j + 1) best rng k2 p u t hg hk2 hcont hcmd htgt hu ht
        | attack target2 =>
          by_cases htgt2 : (territories.getD target2 default).contents.isSome = true
          · simp only [phaseDgo, htgt2, if_true]
            exact ih (j + 1) best rng k2 p u t hg hk2 hcont hcmd htgt hu ht
          · rw [Bool.not_eq_true] at htgt2
            simp only [phaseDgo, htgt2, Bool.false_eq_true, if_false]
            by_cases hlt : (best.getD target2 default).units < units
            · rw [if_pos hlt]
              refine ih (j + 1) _ rng k2 p u t
                (goodBest_set best target2 _ hg (fun _ => rfl)) hk2 hcont hcmd htgt hu ?_
              rw [List.length_set]
              exact ht
            · rw [if_neg hlt]
              by_cases heq : (best.getD target2 default).units = units
              · rw [if_pos heq]
                cases hgen : rng.generate with
                | mk v rng2 =>
                  by_cases hv : (v % ((best.getD target2 default).competitor_count + 1) == 0) = true
                  · simp only [hv, if_true]
                    refine ih (j + 1) _ rng2 k2 p u t
                      (goodBest_set best target2 _ hg (fun _ => rfl)) hk2 hcont hcmd htgt hu ?_
                    rw [List.length_set]
                    exact ht
                  · rw [Bool.not_eq_true] at hv
                    simp only [hv, Bool.false_eq_true, if_false]
                    refine ih (j + 1) _ rng2 k2 p u t
                      (goodBest_set best target2 _ hg (fun h0 => hg target2 h0)) hk2 hcont hcmd htgt hu ?_
                    rw [List.length_set]
                    exact ht
              · rw [if_neg heq]
                exact ih (j + 1) best rng k2 p u t hg hk2 hcont hcmd htgt hu ht

/-- Every source recorded by the phase D loop points at a territory that
is occupied in the (post phase C) territory list being iterated. -/
theorem phaseDgo_sources (territories : List Territory) (rest : List Territory) :
    ∀ (j : Nat) (best : List IncomingEntry) (rng : Rng),
      (∀ k : Nat, k < rest.length → rest.getD k default = territories.getD (j + k) default) →
      (∀ t2 s : Nat, (best.getD t2 default).source_territory = some s →
        ((territories.getD s default).contents).isSome) →
      ∀ t2 s : Nat,
        ((phaseDgo territories j rest best rng).1.getD t2 default).source_territory = some s →
        ((territories.getD s default).contents).isSome := by
  induction rest with
  | nil =>
    intro j best rng _ hinv
    exact hinv
  | cons terr rest ih =>
    intro j best rng hlink hinv
    have hlink2 : ∀ k : Nat, k < rest.length →
        rest.getD k default = territories.getD ((j + 1) + k) default := by
      intro k hk
      have e : j + (k + 1) = (j + 1) + k := by omega
      have h2 := hlink (k + 1) (by simp; omega)
      rw [List.getD_cons_succ] at h2
      rw [e] at h2
      exact h2
    have hterr : terr = territories.getD j default := by
      have h0 := hlink 0 (by simp)
      simpa using h0
    obtain ⟨sort, contents, command, adjacent, ri⟩ := terr
    cases contents with
    | none => exact ih (j + 1) best rng hlink2 hinv
    | some pr =>
      rcases pr with ⟨owner, units⟩
      have hjocc : ((territories.getD j default).contents).isSome = true := by
        rw [← hterr]
        rfl
      cases command with
      | fortify => exact ih (j + 1) best rng hlink2 hinv
      | grow => exact ih (j + 1) best rng hlink2 hinv
      | attack target =>
        by_cases htgt : (territories.getD target default).contents.isSome = true
        · simp only [phaseDgo, htgt, if_true]
          exact ih (j + 1) best rng hlink2 hinv
        · rw [Bool.not_eq_true] at htgt
          simp only [phaseDgo, htgt, Bool.false_eq_true, if_false]
          by_cases hlt : (best.getD target default).units < units
          · rw [if_pos hlt]
            refine ih (j + 1) _ rng hlink2 ?_
            intro t2 s hs
            rw [getD_set] at hs
            split at hs
            · injection hs with hjs
              subst hjs
              exact hjocc
            · exact hinv t2 s hs
          · rw [if_neg hlt]
            by_cases heq : (best.getD target default).units = units
            · rw [if_pos heq]
              cases hgen : rng.generate with
              | mk v rng2 =>
                by_cases hv : (v % ((best.getD target default).competitor_count + 1) == 0) = true
                · simp only [hv, if_true]
                  refine ih (j + 1) _ rng2 hlink2 ?_
                  intro t2 s hs
                  rw [getD_set] at hs
                  split at hs
                  · injection hs with hjs
                    subst hjs
                    exact hjocc
                  · exact hinv t2 s hs
                · rw [Bool.not_eq_true] at hv
                  simp only [hv, Bool.false_eq_true, if_false]
                  refine ih (j + 1) _ rng2 hlink2 ?_
                  intro t2 s hs
                  rw [getD_set] at hs
                  split at hs
                  · exact hinv target s hs
                  · exact hinv t2 s hs
            · rw [if_neg heq]
              exact ih (j + 1) best rng hlink2 hinv

/-! ### Claim theorems -/

/-- C5: Phase A of step_time computes, for every occupied territory, a
half-defense score equal to twice the owner's defense level, plus the
unit count if the territory's command is Attack and twice the unit count
otherwise, plus a terrain modifier of -2 for swamp, +2 for forest, and
the unit count again for every other terrain, plus 2 if the command is
Fortify; every unoccupied territory scores 0. -/
theorem phaseA_matches_spec (st : GameState) :
    st.territories.map (half_defense_of st.player_states) =
    st.territories.map (specHalfDefense st.player_states) := by
  refine List.map_congr_left ?_
  intro terr _
  unfold half_defense_of specHalfDefense
  rcases terr with ⟨sort, contents, command, adj, ri⟩
  cases contents with
  | none => rfl
  | some pair =>
    rcases pair with ⟨owner, units⟩
    cases command <;> cases sort <;> simp

/-- C8: each call of `Rng::generate` increments the internal 64-bit
counter by one, then applies exactly three rounds of multiplying by the
fixed odd 64-bit constant and xoring with a right-shift by 37, followed
by one final multiplication by the same constant, and returns that value;
two generators with identical state produce identical output sequences
forever. -/
theorem rng_generate_spec :
    RngMULT % 2 = 1 ∧
    (∀ r : Rng,
      (r.generate).1 =
        (let counter := (r.state + 1) % U64
         let round := fun x => Nat.xor (x * RngMULT % U64) ((x * RngMULT % U64) >>> 37)
         round (round (round counter)) * RngMULT % U64) ∧
      (r.generate).2.state = (r.state + 1) % U64) ∧
    (∀ r1 r2 : Rng, r1.state = r2.state → ∀ n, r1.output n = r2.output n) := by
  refine ⟨by decide, fun r => ⟨rfl, rfl⟩, fun r1 r2 h n => ?_⟩
  cases r1
  cases r2
  cases h
  rfl

/-- Witness for C8: two generators seeded with 5 agree on their fourth
output. -/
theorem rng_generate_spec_witness :
    Rng.output (Rng.new_from_seed 5) 3 = Rng.output { state := 5 } 3 :=
  rng_generate_spec.2.2 (Rng.new_from_seed 5) { state := 5 } (by decide) 3

/-- C4: `process_action` is atomic on rejection: whenever it returns an
error, the returned game state (territories, player states, token map and
RNG) is exactly the input state. -/
theorem process_action_atomic (st : GameState) (tok : String) (a : GameAction)
    (e : String) (st2 : GameState)
    (h : st.process_action tok a = (.error e, st2)) : st2 = st := by
  simp only [GameState.process_action] at h
  repeat' split at h
  all_goals
    first
      | (injection h with h1 h2; exact h2.symm)
      | (injection h with h1 h2; injection h1)

/-- Witness for C4: an action by an unknown token is rejected and leaves
the C2 scenario state untouched. -/
theorem process_action_atomic_witness :
    (scenarioC2.process_action "nobody" GameAction.resign).2 = scenarioC2 :=
  process_action_atomic scenarioC2 "nobody" GameAction.resign
    "Player not found" _ rfl

/-- C7: replay determinism: two games constructed from the same seed over
the same initial territories, players and token map, fed equal scripts of
`process_action` calls and `step_time` ticks, end in identical states and
produce identical event logs and action results. -/
theorem replay_deterministic (seed : Nat) (territories : List Territory)
    (players : List PlayerState) (tokens : List (String × Nat))
    (script1 script2 : List ScriptItem) (h : script1 = script2) :
    runScript (GameState.init seed territories players tokens) script1 =
    runScript (GameState.init seed territories players tokens) script2 := by
  rw [h]

/-- Witness for C7: a concrete replay of the 3-territory scenario's setup
with one action and one tick. -/
theorem replay_deterministic_witness :
    runScript
      (GameState.init 0 scenarioC2.territories scenarioC2.player_states
        scenarioC2.player_indices_by_token)
      [ScriptItem.act "A" (GameAction.setCommand 0 (Command.attack 1)), ScriptItem.tick] =
    runScript
      (GameState.init 0 scenarioC2.territories scenarioC2.player_states
        scenarioC2.player_indices_by_token)
      [ScriptItem.act "A" (GameAction.setCommand 0 (Command.attack 1)), ScriptItem.tick] :=
  replay_deterministic 0 scenarioC2.territories scenarioC2.player_states
    scenarioC2.player_indices_by_token _ _ rfl

/-- C9: in Phase C of step_time, a territory whose incoming half-attack
tally is zero keeps its occupancy unchanged, for every half-defense tally
(negative included) and every RNG state: its attack roll is an empty sum,
the defense roll is a natural number, and clearing requires the attack
roll to strictly exceed the defense roll. -/
theorem phaseC_zero_attack_keeps (hd atk : List Int) (terrs : List Territory)
    (rng : Rng) (i : Nat) (h : atk.getD i 0 = 0) :
    ((phaseCgo hd atk 0 terrs rng []).1.getD i default).contents =
    (terrs.getD i default).contents := by
  rw [phaseCgo_element hd atk terrs 0 rng [] i (by simpa using h)]

/-- C6: `process_action` rejects exactly under the specified conditions,
checked in the code's order against the current world state: unknown
token yields PlayerNotFound, a dead player PlayerAlreadyDead for any
action, and for SetCommand an out-of-range territory yields
TerritoryNotFound, an unoccupied one TerritoryEmpty, another player's
NotOwner, and for Attack an out-of-range target TargetNotFound and a
non-adjacent one TargetNotAdjacent; otherwise the call succeeds. -/
theorem process_action_errors_exact (st : GameState) (tok : String) (a : GameAction) :
    (st.process_action tok a).1 =
      (match specValidate st tok a with
       | .ok _ => Except.ok ()
       | .error err => Except.error err.message) := by
  unfold GameState.process_action specValidate
  cases hlook : List.lookup tok st.player_indices_by_token with
  | none => rfl
  | some player_index =>
    by_cases halive : (st.player_states[player_index]?.getD default).is_alive
    · cases a with
      | resign => simp [ActionError.message, halive]
      | setCommand territory command =>
        by_cases hterr : territory < st.territories.length
        · have hget : st.territories.get? territory = some st.territories[territory] := by
            rw [List.get?_eq_getElem?, List.getElem?_eq_getElem hterr]
          cases hc : st.territories[territory].contents with
          | none => simp [ActionError.message, halive, hterr, hget, hc]
          | some pr =>
            rcases pr with ⟨owner, units⟩
            by_cases howner : owner = player_index
            · cases command with
              | fortify => simp [ActionError.message, halive, hterr, hget, hc, howner]
              | grow => simp [ActionError.message, halive, hterr, hget, hc, howner]
              | attack target =>
                by_cases htarget : target < st.territories.length
                · have hge : ¬ st.territories.length ≤ target := by omega
                  have hget2 : ¬ (st.territories.get? target).isNone = true := by
                    simp [List.get?_eq_none]
                    omega
                  by_cases hadj : target ∈ st.territories[territory].adjacent
                  · simp [ActionError.message, halive, hterr, hget, hc, howner, hadj,
                      hge, hget2, List.contains, List.elem_iff]
                  · simp [ActionError.message, halive, hterr, hget, hc, howner, hadj,
                      hge, hget2, List.contains, List.elem_iff]
                · have hge : st.territories.length ≤ target := by omega
                  have hget2 : (st.territories.get? target).isNone = true := by
                    simp [List.get?_eq_none]
                    omega
                  simp [ActionError.message, halive, hterr, hget, hc, howner, hge, hget2]
            · simp [ActionError.message, halive, hterr, hget, hc, howner]
        · have hget : st.territories[territory]? = none := by
            rw [List.getElem?_eq_none_iff]
            omega
          simp [ActionError.message, halive, hterr, hget]
    · simp [ActionError.message, halive]

/-- Witness for C9: territory 0 of the C2 scenario receives a 100-unit
attack while territory 1 receives none; with the scenario's tallies and a
fresh generator, territory 1 keeps its occupant. -/
theorem phaseC_zero_attack_keeps_witness :
    ((phaseCgo scenarioC2tally.1 scenarioC2tally.2 0 scenarioC2.territories
        (Rng.new_from_seed 7) []).1.getD 1 default).contents =
    (scenarioC2.territories.getD 1 default).contents :=
  phaseC_zero_attack_keeps scenarioC2tally.1 scenarioC2tally.2
    scenarioC2.territories (Rng.new_from_seed 7) 1 (by decide)

/-- C10: `step_time` never reads the players' alive flags: two states
identical except possibly in the `is_alive` fields of `player_states`
produce identical territory lists, identical RNG state, and identical
events — a resigned or dead player's territories keep executing their
standing commands exactly as a living player's would. -/
theorem step_time_ignores_alive (st1 st2 : GameState)
    (hr : st1.rng = st2.rng) (ht : st1.territories = st2.territories)
    (_hm : st1.player_indices_by_token = st2.player_indices_by_token)
    (hp : samePlayersExceptAlive st1.player_states st2.player_states) :
    (st1.step_time).1.territories = (st2.step_time).1.territories ∧
    (st1.step_time).1.rng = (st2.step_time).1.rng ∧
    (st1.step_time).2 = (st2.step_time).2 := by
  obtain ⟨hlen, hfields⟩ := hp
  have hdl : ∀ i : Nat, (st1.player_states[i]?.getD default).defense_level =
      (st2.player_states[i]?.getD default).defense_level := by
    intro i
    by_cases hi : i < st1.player_states.length
    · simpa using (hfields i hi).1
    · rw [List.getElem?_eq_none (by omega), List.getElem?_eq_none (by omega)]
  have hmap : st1.territories.map (half_defense_of st1.player_states) =
      st2.territories.map (half_defense_of st2.player_states) := by
    rw [ht]
    exact List.map_congr_left (fun terr _ => half_defense_congr _ _ hdl terr)
  rw [step_time_eq st1, step_time_eq st2]
  rw [hmap, ht, hr]
  exact ⟨rfl, rfl, rfl⟩

/-- Witness for C10: the 2-territory scenario with its player alive and
with its player dead steps to the same territories, RNG and events. -/
theorem step_time_ignores_alive_witness :
    ((scenario2 0).step_time).1.territories = (scenario2dead.step_time).1.territories ∧
    ((scenario2 0).step_time).1.rng = (scenario2dead.step_time).1.rng ∧
    ((scenario2 0).step_time).2 = (scenario2dead.step_time).2 :=
  step_time_ignores_alive (scenario2 0) scenario2dead rfl rfl rfl (by decide)

/-- C2 counterexample: in the C2 scenario, territory 0 is occupied before
the step with 5 units and commands Attack 2, territory 2 is empty after
phase C, and territory 0 is the only territory targeting 2 — yet because
phase C empties territory 0, phase D registers no candidate at all for
target 2 (entry still at its initial units = -1, competitor count 0) and
territory 2 stays empty after the step, contrary to the claim that
pre-phase-C occupancy decides candidacy. -/
theorem movement_candidate_precombat_refuted :
    (scenarioC2.territories.getD 0 default).contents = some (0, 5) ∧
    (scenarioC2.territories.getD 0 default).command = Command.attack 2 ∧
    (scenarioC2.territories.getD 1 default).command = Command.attack 0 ∧
    (scenarioC2.territories.getD 2 default).command = Command.grow ∧
    (scenarioC2combat.1.getD 0 default).contents = none ∧
    (scenarioC2combat.1.getD 2 default).contents = none ∧
    scenarioC2best.1.getD 2 default =
      { units := -1, source_territory := none, competitor_count := 0 } ∧
    ((scenarioC2.step_time).1.territories.getD 2 default).contents = none := by
  decide

/-- C2 amended: in Phase D of step_time, movement candidacy is computed
from the post-phase-C occupancy: every territory that is occupied after
combat with u ≥ 0 units, whose command is Attack target with target
empty post-combat, participates in the selection — the winning entry for
that target records at least u units and some source, and every recorded
source is a territory occupied after combat (so a territory emptied by
phase C is never a movement source). -/
theorem movement_candidates_post_combat (terrs : List Territory) (rng : Rng)
    (i t p : Nat) (u : Int)
    (hi : i < terrs.length)
    (hcont : (terrs.getD i default).contents = some (p, u))
    (hcmd : (terrs.getD i default).command = .attack t)
    (htgt : (terrs.getD t default).contents = none)
    (hu : 0 ≤ u)
    (ht : t < terrs.length) :
    u ≤ ((phaseDgo terrs 0 terrs (initBest terrs.length) rng).1.getD t default).units ∧
    ((phaseDgo terrs 0 terrs (initBest terrs.length) rng).1.getD t default).source_territory.isSome ∧
    (∀ t2 s : Nat,
      ((phaseDgo terrs 0 terrs (initBest terrs.length) rng).1.getD t2 default).source_territory =
        some s →
      ((terrs.getD s default).contents).isSome) := by
  have hgood : goodBest (initBest terrs.length) := by
    intro t2
    unfold initBest
    rw [getD_replicate]
    split <;> decide
  have hinv : ∀ t2 s : Nat,
      ((initBest terrs.length).getD t2 default).source_territory = some s →
      ((terrs.getD s default).contents).isSome := by
    intro t2 s hs
    unfold initBest at hs
    rw [getD_replicate] at hs
    split at hs <;> simp at hs
  have hlen : t < (initBest terrs.length).length := by
    unfold initBest
    rw [List.length_replicate]
    exact ht
  obtain ⟨c1, c2⟩ := phaseDgo_candidate terrs terrs 0 (initBest terrs.length) rng i p u t
    hgood hi hcont hcmd htgt hu hlen
  refine ⟨c1, c2, phaseDgo_sources terrs terrs 0 _ rng ?_ hinv⟩
  intro k _
  rw [Nat.zero_add]

/-- Witness for the amended C2: in the 2-territory scenario's territory
list, territory 0 (10 units, Attack 1, target empty) is a candidate, the
selection records its 10 units and a source for target 1, and every
recorded source is occupied. -/
theorem movement_candidates_post_combat_witness :
    (0 : Int) ≤ 10 ∧
    ((10 : Int) ≤ ((phaseDgo (scenario2 0).territories 0 (scenario2 0).territories
        (initBest (scenario2 0).territories.length) (Rng.new_from_seed 3)).1.getD 1
          default).units ∧
      ((phaseDgo (scenario2 0).territories 0 (scenario2 0).territories
        (initBest (scenario2 0).territories.length) (Rng.new_from_seed 3)).1.getD 1
          default).source_territory.isSome ∧
      (∀ t2 s : Nat,
        ((phaseDgo (scenario2 0).territories 0 (scenario2 0).territories
          (initBest (scenario2 0).territories.length) (Rng.new_from_seed 3)).1.getD t2
            default).source_territory = some s →
        (((scenario2 0).territories.getD s default).contents).isSome)) :=
  ⟨by decide,
   movement_candidates_post_combat (scenario2 0).territories (Rng.new_from_seed 3)
     0 1 0 10 (by decide) (by decide) (by decide) (by decide) (by decide) (by decide)⟩

/-- C1: `step_time` does build the ordered Death-then-Movement event list
internally — evaluated on the spec's 2-territory scenario it holds a
Death event (for the attacked empty territory 1) followed by the Movement
event — but the Rust function's signature is `fn step_time(&mut self)`:
the vector is dropped when the function returns and is never made
available to the caller. -/
theorem step_time_builds_events :
    ((scenario2 0).step_time).2 =
      [AnimationEvent.death (10, 20) 0, AnimationEvent.movement (0, 0) (10, 20) 0] := by
  decide

/-- C3: on the spec's 2-territory scenario (territory 0: player 0, 10
units, Attack 1; territory 1 empty), one step moves the occupancy to
territory 1, empties territory 0, and produces exactly one Movement
event from territory 0's coordinates to territory 1's — but its amount
is the hardcoded 0, not the moved unit count 10 the claim requires. -/
theorem scenario2_step_outcome :
    ((scenario2 0).step_time).1.territories.map Territory.contents = [none, some (0, 10)] ∧
    ((scenario2 0).step_time).2.filter
      (fun e => match e with | .movement _ _ _ => true | _ => false) =
      [AnimationEvent.movement (0, 0) (10, 20) 0] := by
  decide

end Mapwar
